import Mathlib

/-!
Verification of the GaussOpt quasi-optics library (shallow embedding).

Python floats are modelled as exact rationals (for the matrix / frequency
algebra, which only uses field operations) or as reals (for the beam
computations, which use square roots and pi).  Numpy 2x2 matrices become the
`M2` structure; numpy arrays of per-frequency values are modelled per sample,
since every array computation in the source is elementwise.  Python
exceptions become `Except` / `Option` results.
-/

namespace GaussOpt

/-- A 2x2 matrix with entries `a b / c d`, modelling the numpy 2x2 `matrix`
objects used throughout `component.py` and `system.py`. -/
structure M2 (α : Type) where
  a : α
  b : α
  c : α
  d : α
deriving DecidableEq, Repr

/-- Matrix product (row by column), modelling `np.dot` on 2x2 matrices. -/
def M2.mul {α : Type} [Mul α] [Add α] (x y : M2 α) : M2 α :=
  ⟨x.a * y.a + x.b * y.c, x.a * y.b + x.b * y.d,
   x.c * y.a + x.d * y.c, x.c * y.b + x.d * y.d⟩

/-- The 2x2 identity matrix, `np.matrix([[1., 0.], [0., 1.]])`. -/
def M2.id2 : M2 ℚ := ⟨1, 0, 0, 1⟩

/-- An optical component, from `component.py` class `Component`: a 2x2 beam
transformation matrix and a physical length `d` (`Component.__init__` sets
`self.d = 0.`; only the propagation subclasses overwrite it).  Fields of the
source irrelevant to the claims (comment string, aperture radius, verbosity
flag, type tag) are omitted. -/
structure Comp where
  matrix : M2 ℚ
  d : ℚ
deriving DecidableEq, Repr

/-- Model of `Component.__mul__(self, next_comp)` (component.py lines 86-106): the
composite has matrix `np.dot(next_comp.matrix, self.matrix)` and is built by
the generic `Component` constructor, whose default sets `d = 0.`.
`compose A B` is Python `A * B`. -/
def compose (A B : Comp) : Comp :=
  ⟨M2.mul B.matrix A.matrix, 0⟩

/-- Model of `Freespace.__init__` (component.py lines 154-187) with the unit
multiplier `mult` already resolved by `set_d_units`:
`d = distance * mult`, matrix `[[1, d], [0, 1]]`. -/
def Freespace (distance mult : ℚ) : Comp :=
  ⟨⟨1, distance * mult, 0, 1⟩, distance * mult⟩

/-- Model of `Dielectric.__init__` (component.py lines 217-255):
`d = thickness * mult`, matrix `[[1, d * n], [0, 1]]`. -/
def Dielectric (thickness n mult : ℚ) : Comp :=
  ⟨⟨1, thickness * mult * n, 0, 1⟩, thickness * mult⟩

/-- Model of `Mirror.__init__` (component.py lines 285-320):
`f = focal_length * mult`, matrix `[[1, 0], [-1/f, 1]]`, `d` stays 0. -/
def Mirror (focal_length mult : ℚ) : Comp :=
  ⟨⟨1, 0, -(1 / (focal_length * mult)), 1⟩, 0⟩

/-- Model of `ThinLens.__init__` (component.py lines 351-386):
`f = focal_length * mult`, matrix `[[1, 0], [-1/f, 1]]`, `d` stays 0. -/
def ThinLens (focal_length mult : ℚ) : Comp :=
  ⟨⟨1, 0, -(1 / (focal_length * mult)), 1⟩, 0⟩

/-- Model of `SphericalMirror.__init__` (component.py lines 418-454):
`f = radius_curv * mult / 2`, matrix `[[1, 0], [-1/f, 1]]`, `d` stays 0. -/
def SphericalMirror (radius_curv mult : ℚ) : Comp :=
  ⟨⟨1, 0, -(1 / (radius_curv * mult / 2)), 1⟩, 0⟩

/-- Model of `EllipsoidalMirror.__init__` (component.py lines 486-525):
`f = d1 * d2 / (d1 + d2)` — note the source applies NO unit multiplier
here, unlike the other focusing constructors — matrix `[[1, 0], [-1/f, 1]]`,
`d` stays 0.  The `mult` argument is kept to mirror the signature of the
constructor (a `units` keyword is accepted but unused for `f`). -/
def EllipsoidalMirror (d1 d2 mult : ℚ) : Comp :=
  ⟨⟨1, 0, -(1 / (d1 * d2 / (d1 + d2))), 1⟩, 0⟩

/-- Model of the `System.__init__` cascade (system.py lines 58-61):
`self._system = component_list[0]` — an `IndexError` on an empty list,
modelled as `none` — then `self._system = np.dot(comp, self._system)` for
each later component, which is Python `comp * self._system`, i.e.
`compose comp sys`. -/
def systemCascade : List Comp → Option Comp
  | [] => none
  | c :: rest => some (rest.foldl (fun sys comp => compose comp sys) c)

/-- Binary composition trees over components: all the ways of grouping a
sequence of components under `compose`. -/
inductive CompTree where
  | leaf : Comp → CompTree
  | node : CompTree → CompTree → CompTree

/-- Evaluate a grouping: each internal node composes its two sides
(left side nearer the source). -/
def CompTree.eval : CompTree → Comp
  | .leaf c => c
  | .node l r => compose l.eval r.eval

/-- The source-ordered sequence of leaves of a grouping. -/
def CompTree.flatten : CompTree → List Comp
  | .leaf c => [c]
  | .node l r => l.flatten ++ r.flatten

/-- Reverse-order matrix product of a component list:
`prodRev [c0, ..., cn] = Mn * ... * M0`. -/
def prodRev : List Comp → M2 ℚ
  | [] => M2.id2
  | c :: rest => M2.mul (prodRev rest) c.matrix

-- Unit conversion (util.py) ------------------------------------------------

/-- The `ValueError("Distance units not recognized.")` message of
`set_d_units`. -/
def dUnitsErr : String := "Distance units not recognized."

/-- The `ValueError("Frequency units not recognized.")` message of
`set_f_units`. -/
def fUnitsErr : String := "Frequency units not recognized."

/-- Python `str.lower()` on the ASCII unit names: lowercase every
character. -/
def strLower (s : String) : String := ⟨s.data.map Char.toLower⟩

/-- Model of `set_d_units` (util.py lines 149-178): look `units.lower()` up in the
fixed table `{km: 1e3, m: 1, dm: 1e-1, cm: 1e-2, mm: 1e-3, um: 1e-6}`;
a missing key raises `ValueError`. -/
def set_d_units (units : String) : Except String ℚ :=
  let t := strLower units
  if t = "km" then .ok 1000
  else if t = "m" then .ok 1
  else if t = "dm" then .ok (1 / 10)
  else if t = "cm" then .ok (1 / 100)
  else if t = "mm" then .ok (1 / 1000)
  else if t = "um" then .ok (1 / 1000000)
  else .error dUnitsErr

/-- Model of `set_f_units` (util.py lines 181-209): look `units.lower()` up in the
fixed table `{thz: 1e12, ghz: 1e9, mhz: 1e6, khz: 1e3, hz: 1}`;
a missing key raises `ValueError`. -/
def set_f_units (units : String) : Except String ℚ :=
  let t := strLower units
  if t = "thz" then .ok 1000000000000
  else if t = "ghz" then .ok 1000000000
  else if t = "mhz" then .ok 1000000
  else if t = "khz" then .ok 1000
  else if t = "hz" then .ok 1
  else .error fUnitsErr

-- Frequency sweep (frequency.py) --------------------------------------------

/-- Model of `np.linspace(start, stop, n)`: `n` evenly spaced samples, both endpoints
included; `n = 1` gives `[start]`, `n = 0` gives the empty array. -/
def linspace (start stop : ℚ) (n : ℕ) : List ℚ :=
  if n = 1 then [start]
  else (List.range n).map (fun i => start + (stop - start) * i / ((n : ℚ) - 1))

/-- The message printed by `Frequency.__init__` before raising `ValueError`
when no construction mode applies. -/
def freqErr : String := "Must specify start+stop+npts, center+span+npts or single"

/-- Model of `Frequency.__init__` (frequency.py lines 26-79), with the unit
multiplier `mult` already resolved by `set_f_units`.  The branching is
verbatim from the source: `single` overrides start/stop/npts; otherwise
`center`+`span` overwrite start/stop; then start+stop+npts builds a
linspace, else an explicit `freq` array is used, else `ValueError`. -/
def freqInit (start stop : Option ℚ) (npts : Option ℕ) (freq : Option (List ℚ))
    (mult : ℚ) (center span single : Option ℚ) : Except String (List ℚ) :=
  let sst : Option ℚ × Option ℚ × Option ℕ :=
    match single with
    | some s => (some s, some s, some 1)
    | none =>
      match center, span with
      | some c, some sp => (some (c - sp / 2), some (c + sp / 2), npts)
      | _, _ => (start, stop, npts)
  match sst with
  | (some a, some b, some n) => .ok ((linspace a b n).map (· * mult))
  | _ =>
    match freq with
    | some l => .ok (l.map (· * mult))
    | none => .error freqErr

/-- Model of `np.argmin` on a nonempty list: index of the first occurrence of the
minimum value (the empty list is given index 0; numpy raises there and no
claim depends on it). -/
def argmin : List ℚ → ℕ
  | [] => 0
  | [_] => 0
  | x :: y :: rest =>
    let j := argmin (y :: rest)
    if x ≤ (y :: rest).getD j 0 then 0 else j + 1

/-- Model of `Frequency.idx` (frequency.py lines 126-147) on a sweep whose sample
array is `fList` (base units, Hz): `np.abs(freq * mult - self.f).argmin()`,
with `mult` the factor resolved by `set_f_units`. -/
def Frequency_idx (fList : List ℚ) (freq mult : ℚ) : ℕ :=
  argmin (fList.map (fun x => |freq * mult - x|))

-- Beam propagation engine (system.py) ----------------------------------------

/-- Model of `transform_beam` (system.py lines 364-384):
`q_out = (A q_in + B) / (C q_in + D)`. -/
noncomputable def transform_beam (m : M2 ℝ) (q : ℂ) : ℂ :=
  ((m.a : ℂ) * q + (m.b : ℂ)) / ((m.c : ℂ) * q + (m.d : ℂ))

/-- Model of `_waist_from_q` (system.py lines 389-402):
`sqrt(wavelength / (pi * Im(-1/q)))`. -/
noncomputable def waist_from_q (q : ℂ) (wavelength : ℝ) : ℝ :=
  Real.sqrt (wavelength / (Real.pi * (-1 / q).im))

/-- Model of `_radius_from_q` (system.py lines 405-417): `1 / Re(1/q)`. -/
noncomputable def radius_from_q (q : ℂ) : ℝ :=
  1 / (1 / q).re

/-- Model of `_freespace_matrix` (system.py lines 420-432): `[[1, d], [0, 1]]`. -/
noncomputable def freespace_matrix (distance : ℝ) : M2 ℝ :=
  ⟨1, distance, 0, 1⟩

/-- Model of `System.__init__` line 63: `qout = transform_beam(matrix, horn_tx.q)`,
per frequency sample. -/
noncomputable def System_qout (m : M2 ℝ) (q_tx : ℂ) : ℂ :=
  transform_beam m q_tx

/-- Model of `System.__init__` line 64, verbatim from the source:
`self.wout = _waist_from_q(self._horn_tx.q, self.freq.w)` — the waist is
computed from the aperture parameter of the transmit horn `q_tx`; the cascaded
matrix `m` is NOT used. -/
noncomputable def System_wout (m : M2 ℝ) (q_tx : ℂ) (wavelength : ℝ) : ℝ :=
  waist_from_q q_tx wavelength

/-- Model of `System.__init__` line 65, verbatim from the source:
`self.rout = _radius_from_q(self._horn_tx.q)` — again from `q_tx`, not from
`qout`; the cascaded matrix `m` is NOT used. -/
noncomputable def System_rout (m : M2 ℝ) (q_tx : ℂ) : ℝ :=
  radius_from_q q_tx

/-- The beam parameter at the waist plane of the receive horn inside `_coupling`
(system.py lines 454-459): `qin` propagated through a freespace matrix of
the z-offset of the horn. -/
noncomputable def coupling_qout (qin : ℂ) (zoff : ℝ) : ℂ :=
  transform_beam (freespace_matrix zoff) qin

/-- The waist `w` computed inside `_coupling` (system.py line 461):
`sqrt(wavelength / (pi * Im(-1/qout)))`. -/
noncomputable def coupling_w (qin : ℂ) (zoff wavelength : ℝ) : ℝ :=
  Real.sqrt (wavelength / (Real.pi * (-1 / coupling_qout qin zoff).im))

/-- The radius `r` computed inside `_coupling` (system.py line 463):
`1 / Re(1/qout)`. -/
noncomputable def coupling_r (qin : ℂ) (zoff : ℝ) : ℝ :=
  1 / (1 / coupling_qout qin zoff).re

/-- Model of `_coupling` (system.py lines 435-469), per frequency sample, with the
receive horn abstracted to its aperture waist `whorn` and z-offset `zoff`:
`4 / ((w/wh + wh/w)^2 + (pi wh w / lambda)^2 (1/r - 1/1e50)^2)`. -/
noncomputable def coupling (qin : ℂ) (whorn zoff wavelength : ℝ) : ℝ :=
  4 / ((coupling_w qin zoff wavelength / whorn + whorn / coupling_w qin zoff wavelength) ^ 2 +
    (Real.pi * whorn * coupling_w qin zoff wavelength / wavelength) ^ 2 *
      (1 / coupling_r qin zoff - 1 / (10 : ℝ) ^ 50) ^ 2)

-- Helper lemmas --------------------------------------------------------------

/-- Matrix multiplication on `M2 ℚ` is associative. -/
lemma M2.mul_assoc (x y z : M2 ℚ) : M2.mul (M2.mul x y) z = M2.mul x (M2.mul y z) := by
  simp only [M2.mul, M2.mk.injEq]
  refine ⟨by ring, by ring, by ring, by ring⟩

/-- The identity matrix is a left unit. -/
lemma M2.id2_mul (x : M2 ℚ) : M2.mul M2.id2 x = x := by
  cases x
  simp [M2.mul, M2.id2]

/-- The identity matrix is a right unit. -/
lemma M2.mul_id2 (x : M2 ℚ) : M2.mul x M2.id2 = x := by
  cases x
  simp [M2.mul, M2.id2]

/-- The map `prodRev` sends list concatenation to reversed matrix product. -/
lemma prodRev_append (xs ys : List Comp) :
    prodRev (xs ++ ys) = M2.mul (prodRev ys) (prodRev xs) := by
  induction xs with
  | nil => simp [prodRev, M2.mul_id2]
  | cons c rest ih => simp [prodRev, ih, M2.mul_assoc]

/-- Any grouping evaluates to the reversed product of its leaves. -/
lemma eval_matrix (t : CompTree) :
    (CompTree.eval t).matrix = prodRev (CompTree.flatten t) := by
  induction t with
  | leaf c => simp [CompTree.eval, CompTree.flatten, prodRev, M2.id2_mul]
  | node l r ihl ihr =>
    simp [CompTree.eval, CompTree.flatten, compose, ihl, ihr, prodRev_append]

/-- Left-to-right folding from a seed evaluates to the reversed product. -/
lemma foldl_compose_matrix (l : List Comp) (a : Comp) :
    (l.foldl compose a).matrix = M2.mul (prodRev l) a.matrix := by
  induction l generalizing a with
  | nil => simp [prodRev, M2.id2_mul]
  | cons c rest ih => simp [List.foldl, ih, compose, prodRev, M2.mul_assoc]

-- Claim theorems --------------------------------------------------------------

/-- C2: the claim says `Mirror(f)`, `ThinLens(f)`, `SphericalMirror(2f)` and
`EllipsoidalMirror(2f, 2f)` produce identical matrices for the same unit
string.  The code violates this: at `f = 160`, `units = "mm"`
(multiplier 1/1000) the first three agree but `EllipsoidalMirror` omits the
unit conversion of its focal length, so its matrix differs. -/
theorem C2_focusing_equivalence_bug :
    set_d_units "mm" = .ok (1 / 1000) ∧
    (Mirror 160 (1 / 1000)).matrix = (ThinLens 160 (1 / 1000)).matrix ∧
    (Mirror 160 (1 / 1000)).matrix = (SphericalMirror 320 (1 / 1000)).matrix ∧
    (Mirror 160 (1 / 1000)).matrix ≠ (EllipsoidalMirror 320 320 (1 / 1000)).matrix := by
  refine ⟨?_, rfl, ?_, ?_⟩
  · have h : strLower "mm" = "mm" := by decide
    simp [set_d_units, h]
  · simp only [Mirror, SphericalMirror, M2.mk.injEq]
    norm_num
  · simp only [Mirror, EllipsoidalMirror, ne_eq, M2.mk.injEq]
    norm_num

/-- C3 counterexample: composing two free-space sections of 10 mm and 20 mm
yields a composite of physical length 0, not 30 mm — `Component.__mul__`
builds a bare `Component`, whose constructor resets `d` to 0. -/
theorem C3_compose_length_counterexample :
    (compose (Freespace 10 (1 / 1000)) (Freespace 20 (1 / 1000))).d = 0 ∧
    (Freespace 10 (1 / 1000)).d + (Freespace 20 (1 / 1000)).d = 3 / 100 ∧
    (compose (Freespace 10 (1 / 1000)) (Freespace 20 (1 / 1000))).d ≠
      (Freespace 10 (1 / 1000)).d + (Freespace 20 (1 / 1000)).d := by
  refine ⟨rfl, by norm_num [Freespace], ?_⟩
  norm_num [Freespace, compose]

/-- C3 amended: the composite produced by `compose` always has physical
length 0 (the generic `Component` default), so its length equals the sum of
the operand lengths only when that sum is itself 0. -/
theorem C3_compose_length_amended (A B : Comp) :
    (compose A B).d = 0 ∧ ((compose A B).d = A.d + B.d ↔ A.d + B.d = 0) := by
  simp [compose, eq_comm]

/-- C5: `compose A B` has matrix `matrix(B) * matrix(A)` (the left operand,
nearer the source, applies first), and consequently any grouping of a
sequence of elements evaluates to the same final matrix as the left-to-right
fold of that sequence. -/
theorem C5_compose_matrix_order :
    (∀ A B : Comp, (compose A B).matrix = M2.mul B.matrix A.matrix) ∧
    (∀ (t : CompTree) (a : Comp) (l : List Comp), CompTree.flatten t = a :: l →
      (CompTree.eval t).matrix = (l.foldl compose a).matrix) := by
  refine ⟨fun A B => rfl, fun t a l h => ?_⟩
  rw [eval_matrix, h, foldl_compose_matrix]
  rfl

/-- Witness for C5 at a concrete grouping: the two-leaf tree over a
free-space section and a mirror evaluates to the fold of its flattening. -/
theorem C5_compose_matrix_order_witness :
    (CompTree.eval (.node (.leaf (Freespace 1 1)) (.leaf (Mirror 2 1)))).matrix =
      ([Mirror 2 1].foldl compose (Freespace 1 1)).matrix :=
  C5_compose_matrix_order.2 _ _ _ rfl

/-- C9: a dielectric with `n = 1` has the same matrix as free space of the
same thickness; in general only the `[0][1]` entry differs, by the factor
`n`. -/
theorem C9_dielectric_freespace (th n mult : ℚ) :
    (Dielectric th 1 mult).matrix = (Freespace th mult).matrix ∧
    (Dielectric th n mult).matrix.b = n * (Freespace th mult).matrix.b ∧
    (Dielectric th n mult).matrix.a = (Freespace th mult).matrix.a ∧
    (Dielectric th n mult).matrix.c = (Freespace th mult).matrix.c ∧
    (Dielectric th n mult).matrix.d = (Freespace th mult).matrix.d := by
  refine ⟨?_, ?_, rfl, rfl, rfl⟩
  · simp [Dielectric, Freespace]
  · simp only [Dielectric, Freespace]
    ring

/-- C10: the cascade in the `System` constructor indexes `component_list[0]`
unconditionally, so it fails exactly on an empty element list; every
successfully constructed system therefore has a non-empty element list. -/
theorem C10_system_nonempty (l : List Comp) :
    systemCascade l = none ↔ l = [] := by
  cases l <;> simp [systemCascade]

/-- C6 counterexample: supplying both a complete `start`/`stop`/`npts`
triple and an explicit `freq` array is ambiguous (two modes resolvable), yet
the constructor does not fail — it silently builds the linspace. -/
theorem C6_ambiguous_counterexample :
    freqInit (some 1) (some 2) (some 3) (some [5]) 1 none none none =
      .ok [1, 3 / 2, 2] := by
  simp [freqInit, linspace, List.range_succ]
  norm_num

/-- C6 amended: construction fails (with the configuration error) iff no
mode is resolvable — `single` absent, explicit array absent, and neither
`center`+`span`+`npts` nor `start`+`stop`+`npts` fully supplied.  When
several modes are simultaneously resolvable the constructor silently
prioritizes `single`, then `center`/`span`, then `start`/`stop`/`npts`,
then the explicit array, rather than failing. -/
theorem C6_error_iff_insufficient (start stop : Option ℚ) (npts : Option ℕ)
    (freq : Option (List ℚ)) (mult : ℚ) (center span single : Option ℚ) :
    freqInit start stop npts freq mult center span single = .error freqErr ↔
      (single = none ∧ freq = none ∧
        ¬((center.isSome = true ∧ span.isSome = true ∧ npts.isSome = true) ∨
          (start.isSome = true ∧ stop.isSome = true ∧ npts.isSome = true))) := by
  cases single <;> cases center <;> cases span <;> cases npts <;>
    cases start <;> cases stop <;> cases freq <;> simp [freqInit]

/-- C8: the unit converters return exactly the tabulated scale factor for each
recognized distance or frequency unit name (compared after lowercasing, so
in any letter case), and fail with the invalid-unit error on every other
name — never silently defaulting to some multiplier. -/
theorem C8_unit_conversion_contract :
    (∀ s : String, set_d_units s = .ok 1000 ↔ strLower s = "km") ∧
    (∀ s : String, set_d_units s = .ok 1 ↔ strLower s = "m") ∧
    (∀ s : String, set_d_units s = .ok (1 / 10) ↔ strLower s = "dm") ∧
    (∀ s : String, set_d_units s = .ok (1 / 100) ↔ strLower s = "cm") ∧
    (∀ s : String, set_d_units s = .ok (1 / 1000) ↔ strLower s = "mm") ∧
    (∀ s : String, set_d_units s = .ok (1 / 1000000) ↔ strLower s = "um") ∧
    (∀ s : String, set_d_units s = .error dUnitsErr ↔
      strLower s ∉ (["km", "m", "dm", "cm", "mm", "um"] : List String)) ∧
    (∀ s : String, set_f_units s = .ok 1000000000000 ↔ strLower s = "thz") ∧
    (∀ s : String, set_f_units s = .ok 1000000000 ↔ strLower s = "ghz") ∧
    (∀ s : String, set_f_units s = .ok 1000000 ↔ strLower s = "mhz") ∧
    (∀ s : String, set_f_units s = .ok 1000 ↔ strLower s = "khz") ∧
    (∀ s : String, set_f_units s = .ok 1 ↔ strLower s = "hz") ∧
    (∀ s : String, set_f_units s = .error fUnitsErr ↔
      strLower s ∉ (["thz", "ghz", "mhz", "khz", "hz"] : List String)) := by
  refine ⟨?_, ?_, ?_, ?_, ?_, ?_, ?_, ?_, ?_, ?_, ?_, ?_, ?_⟩ <;>
    · intro s
      simp only [set_d_units, set_f_units, List.mem_cons, List.not_mem_nil]
      split_ifs <;> simp_all <;> norm_num

/-- Unfolding equation for `argmin` on a list of two or more elements. -/
lemma argmin_cons_cons (x y : ℚ) (rest : List ℚ) :
    argmin (x :: y :: rest) =
      if x ≤ (y :: rest).getD (argmin (y :: rest)) 0 then 0
      else argmin (y :: rest) + 1 := rfl

/-- The result of `argmin` on a nonempty list is a valid index. -/
lemma argmin_lt_length (l : List ℚ) (hne : l ≠ []) : argmin l < l.length := by
  induction l with
  | nil => exact absurd rfl hne
  | cons x t ih =>
    cases t with
    | nil => simp [argmin]
    | cons y rest =>
      rw [argmin_cons_cons]
      by_cases hx : x ≤ (y :: rest).getD (argmin (y :: rest)) 0
      · rw [if_pos hx]
        simp
      · rw [if_neg hx]
        have h := ih (by simp)
        simpa using Nat.succ_lt_succ h

/-- The value at `argmin` is a minimum of the list. -/
lemma argmin_le (l : List ℚ) : ∀ i, i < l.length →
    l.getD (argmin l) 0 ≤ l.getD i 0 := by
  induction l with
  | nil => intro i hi; simp at hi
  | cons x t ih =>
    cases t with
    | nil =>
      intro i hi
      have : i = 0 := by simpa using Nat.lt_one_iff.mp (by simpa using hi)
      simp [this, argmin]
    | cons y rest =>
      intro i hi
      rw [argmin_cons_cons]
      by_cases hx : x ≤ (y :: rest).getD (argmin (y :: rest)) 0
      · rw [if_pos hx]
        cases i with
        | zero => simp
        | succ i2 =>
          simp only [List.getD_cons_zero, List.getD_cons_succ]
          exact le_trans hx (ih i2 (by simpa using hi))
      · rw [if_neg hx]
        cases i with
        | zero =>
          simp only [List.getD_cons_zero, List.getD_cons_succ]
          exact le_of_lt (lt_of_not_le hx)
        | succ i2 =>
          simp only [List.getD_cons_succ]
          exact ih i2 (by simpa using hi)

/-- The function `argmin` returns the FIRST occurrence of the minimum: every strictly
earlier index holds a strictly larger value. -/
lemma argmin_first (l : List ℚ) : ∀ j, j < argmin l →
    l.getD (argmin l) 0 < l.getD j 0 := by
  induction l with
  | nil => intro j hj; simp [argmin] at hj
  | cons x t ih =>
    cases t with
    | nil => intro j hj; simp [argmin] at hj
    | cons y rest =>
      intro j hj
      rw [argmin_cons_cons] at hj ⊢
      by_cases hx : x ≤ (y :: rest).getD (argmin (y :: rest)) 0
      · rw [if_pos hx] at hj
        exact absurd hj (Nat.not_lt_zero j)
      · rw [if_neg hx] at hj ⊢
        cases j with
        | zero =>
          simp only [List.getD_cons_zero, List.getD_cons_succ]
          exact lt_of_not_le hx
        | succ j2 =>
          simp only [List.getD_cons_succ]
          exact ih j2 (by omega)

/-- List `getD` with index in range commutes with `map`. -/
lemma getD_map (f : ℚ → ℚ) (l : List ℚ) : ∀ i, i < l.length →
    (l.map f).getD i 0 = f (l.getD i 0) := by
  induction l with
  | nil => intro i hi; simp at hi
  | cons x t ih =>
    intro i hi
    cases i with
    | zero => simp
    | succ i2 => simpa using ih i2 (by simpa using hi)

/-- C7: for a nonempty sweep, `Frequency.idx` converts the target to base
units by the `set_f_units` multiplier and returns a valid index attaining
the minimum absolute difference; every strictly earlier index has a strictly
larger difference (first-occurrence tie-breaking), and if the converted
target equals some sample and no earlier sample equals it, exactly that
index is returned. -/
theorem C7_idx_nearest (fList : List ℚ) (freq mult : ℚ) (hne : fList ≠ []) :
    Frequency_idx fList freq mult < fList.length ∧
    (∀ j, j < fList.length →
      |freq * mult - fList.getD (Frequency_idx fList freq mult) 0| ≤
        |freq * mult - fList.getD j 0|) ∧
    (∀ j, j < Frequency_idx fList freq mult →
      |freq * mult - fList.getD (Frequency_idx fList freq mult) 0| <
        |freq * mult - fList.getD j 0|) ∧
    (∀ k, k < fList.length → fList.getD k 0 = freq * mult →
      (∀ k2, k2 < k → fList.getD k2 0 ≠ freq * mult) →
      Frequency_idx fList freq mult = k) := by
  set g : ℚ → ℚ := fun x => |freq * mult - x| with hg
  set l2 : List ℚ := fList.map g with hl2
  have hlen : l2.length = fList.length := by simp [hl2]
  have hne2 : l2 ≠ [] := by
    simp only [hl2, ne_eq, List.map_eq_nil_iff]
    exact hne
  have hidx : Frequency_idx fList freq mult = argmin l2 := rfl
  have hrange : argmin l2 < fList.length := by
    rw [← hlen]; exact argmin_lt_length l2 hne2
  have hval : ∀ i, i < fList.length → l2.getD i 0 = g (fList.getD i 0) := by
    intro i hi
    exact getD_map g fList i hi
  refine ⟨by rw [hidx]; exact hrange, ?_, ?_, ?_⟩
  · intro j hj
    have h := argmin_le l2 j (by rwa [hlen])
    rw [hval _ hrange, hval _ hj] at h
    rw [hidx]
    exact h
  · intro j hj
    rw [hidx] at hj ⊢
    have hjlen : j < fList.length := lt_trans hj hrange
    have h := argmin_first l2 j hj
    rw [hval _ hrange, hval _ hjlen] at h
    exact h
  · intro k hk hkeq hkfirst
    rw [hidx]
    rcases lt_trichotomy (argmin l2) k with h | h | h
    · exfalso
      have hle := argmin_le l2 k (by rwa [hlen])
      rw [hval _ hrange, hval _ hk, hkeq] at hle
      simp only [hg, sub_self, abs_zero] at hle
      have : |freq * mult - fList.getD (argmin l2) 0| = 0 := le_antisymm hle (abs_nonneg _)
      have heq : fList.getD (argmin l2) 0 = freq * mult := by
        have := abs_eq_zero.mp this
        linarith [sub_eq_zero.mp this]
      exact hkfirst (argmin l2) h heq
    · exact h
    · exfalso
      have hlt := argmin_first l2 k h
      rw [hval _ hrange, hval _ hk, hkeq] at hlt
      simp only [hg, sub_self, abs_zero] at hlt
      exact absurd hlt (not_lt.mpr (abs_nonneg _))

/-- Witness for C7 on the sweep `[1, 2]` with target 2 and multiplier 1. -/
theorem C7_idx_nearest_witness :
    Frequency_idx [1, 2] 2 1 < ([1, 2] : List ℚ).length ∧
    (∀ j, j < ([1, 2] : List ℚ).length →
      |(2 : ℚ) * 1 - ([1, 2] : List ℚ).getD (Frequency_idx [1, 2] 2 1) 0| ≤
        |(2 : ℚ) * 1 - ([1, 2] : List ℚ).getD j 0|) ∧
    (∀ j, j < Frequency_idx [1, 2] 2 1 →
      |(2 : ℚ) * 1 - ([1, 2] : List ℚ).getD (Frequency_idx [1, 2] 2 1) 0| <
        |(2 : ℚ) * 1 - ([1, 2] : List ℚ).getD j 0|) ∧
    (∀ k, k < ([1, 2] : List ℚ).length → ([1, 2] : List ℚ).getD k 0 = 2 * 1 →
      (∀ k2, k2 < k → ([1, 2] : List ℚ).getD k2 0 ≠ 2 * 1) →
      Frequency_idx [1, 2] 2 1 = k) :=
  C7_idx_nearest [1, 2] 2 1 (by simp)

/-- C1: the claim says `wout`/`rout` are derived from the cascaded output
parameter `qout = transform(matrix, q_tx)`.  The code instead passes
`horn_tx.q` to both helpers (system.py lines 64-65), contradicting the class
docstring that calls them the OUTPUT waist and radius.  Failing input:
cascade matrix `[[1, 1], [0, 1]]` (one metre of free space), `q_tx = 1 + i`,
wavelength `pi`: the code stores waist `sqrt 2` and radius 2, while the
claimed values from `qout = 2 + i` are `sqrt 5` and `5/2`. -/
theorem C1_system_output_bug :
    System_qout ⟨1, 1, 0, 1⟩ (1 + Complex.I) = 2 + Complex.I ∧
    System_wout ⟨1, 1, 0, 1⟩ (1 + Complex.I) Real.pi = Real.sqrt 2 ∧
    waist_from_q (System_qout ⟨1, 1, 0, 1⟩ (1 + Complex.I)) Real.pi = Real.sqrt 5 ∧
    System_rout ⟨1, 1, 0, 1⟩ (1 + Complex.I) = 2 ∧
    radius_from_q (System_qout ⟨1, 1, 0, 1⟩ (1 + Complex.I)) = 5 / 2 ∧
    System_wout ⟨1, 1, 0, 1⟩ (1 + Complex.I) Real.pi ≠
      waist_from_q (System_qout ⟨1, 1, 0, 1⟩ (1 + Complex.I)) Real.pi ∧
    System_rout ⟨1, 1, 0, 1⟩ (1 + Complex.I) ≠
      radius_from_q (System_qout ⟨1, 1, 0, 1⟩ (1 + Complex.I)) := by
  have hq : System_qout ⟨1, 1, 0, 1⟩ (1 + Complex.I) = 2 + Complex.I := by
    simp [System_qout, transform_beam]
    ring
  have hwout : System_wout ⟨1, 1, 0, 1⟩ (1 + Complex.I) Real.pi = Real.sqrt 2 := by
    have him : ((-1 : ℂ) / (1 + Complex.I)).im = 1 / 2 := by
      norm_num [Complex.div_im, Complex.normSq_apply]
    rw [System_wout, waist_from_q, him]
    congr 1
    field_simp
  have hw2 : waist_from_q (2 + Complex.I) Real.pi = Real.sqrt 5 := by
    have him : ((-1 : ℂ) / (2 + Complex.I)).im = 1 / 5 := by
      norm_num [Complex.div_im, Complex.normSq_apply]
    rw [waist_from_q, him]
    congr 1
    field_simp
  have hrout : System_rout ⟨1, 1, 0, 1⟩ (1 + Complex.I) = 2 := by
    have hre : ((1 : ℂ) / (1 + Complex.I)).re = 1 / 2 := by
      norm_num [Complex.div_re, Complex.normSq_apply]
    rw [System_rout, radius_from_q, hre]
    norm_num
  have hr2 : radius_from_q (2 + Complex.I) = 5 / 2 := by
    have hre : ((1 : ℂ) / (2 + Complex.I)).re = 2 / 5 := by
      norm_num [Complex.div_re, Complex.normSq_apply]
    rw [radius_from_q, hre]
    norm_num
  have hsqrtne : Real.sqrt 2 ≠ Real.sqrt 5 :=
    ne_of_lt (Real.sqrt_lt_sqrt (by norm_num) (by norm_num))
  refine ⟨hq, hwout, by rw [hq]; exact hw2, hrout, by rw [hq]; exact hr2, ?_, ?_⟩
  · rw [hwout, hq, hw2]
    exact hsqrtne
  · rw [hrout, hq, hr2]
    norm_num

/-- Propagation by a real z-offset inside `_coupling` just shifts the beam
parameter. -/
lemma coupling_qout_eq (qin : ℂ) (zoff : ℝ) : coupling_qout qin zoff = qin + zoff := by
  simp [coupling_qout, transform_beam, freespace_matrix]

/-- A beam parameter in the upper half plane has `Im(-1/q) > 0`. -/
lemma im_neg_inv_pos {q : ℂ} (hq : 0 < q.im) : 0 < (-1 / q).im := by
  have hq0 : q ≠ 0 := by
    intro h
    rw [h] at hq
    simp at hq
  have h2 : (-1 / q).im = q.im / Complex.normSq q := by
    rw [neg_div, one_div, Complex.neg_im, Complex.inv_im, neg_div, neg_neg]
  rw [h2]
  exact div_pos hq (Complex.normSq_pos.mpr hq0)

/-- The waist computed inside `_coupling` is positive for a physical input
beam (positive wavelength, beam parameter in the upper half plane). -/
lemma coupling_w_pos (qin : ℂ) (zoff wl : ℝ) (hwl : 0 < wl) (hq : 0 < qin.im) :
    0 < coupling_w qin zoff wl := by
  have him : 0 < (-1 / coupling_qout qin zoff).im := by
    apply im_neg_inv_pos
    rw [coupling_qout_eq]
    simpa using hq
  exact Real.sqrt_pos.mpr (div_pos hwl (mul_pos Real.pi_pos him))

/-- C4: for a valid receive horn (positive aperture waist), a valid beam
parameter (upper half plane) and a positive wavelength, the coupling lies in
`[0, 1]`, and it equals 1 exactly when the waist at the receive plane
matches the horn waist and the radius of curvature there matches the 1e50
stand-in for a planar wavefront. -/
theorem C4_coupling_bounds (qin : ℂ) (whorn zoff wl : ℝ)
    (hwl : 0 < wl) (hwh : 0 < whorn) (hq : 0 < qin.im) :
    0 ≤ coupling qin whorn zoff wl ∧ coupling qin whorn zoff wl ≤ 1 ∧
    (coupling qin whorn zoff wl = 1 ↔
      coupling_w qin zoff wl = whorn ∧ coupling_r qin zoff = (10 : ℝ) ^ 50) := by
  have hw : 0 < coupling_w qin zoff wl := coupling_w_pos qin zoff wl hwl hq
  have hcoup : coupling qin whorn zoff wl =
      4 / ((coupling_w qin zoff wl / whorn + whorn / coupling_w qin zoff wl) ^ 2 +
        (Real.pi * whorn * coupling_w qin zoff wl / wl) ^ 2 *
          (1 / coupling_r qin zoff - 1 / (10 : ℝ) ^ 50) ^ 2) := rfl
  set w := coupling_w qin zoff wl with hwdef
  set r := coupling_r qin zoff with hrdef
  set s : ℝ := (Real.pi * whorn * w / wl) ^ 2 * (1 / r - 1 / (10 : ℝ) ^ 50) ^ 2
    with hsdef
  have hs : 0 ≤ s := by positivity
  have hkey : (w / whorn + whorn / w) ^ 2 = (w / whorn - whorn / w) ^ 2 + 4 := by
    field_simp
    ring
  have hD4 : 4 ≤ (w / whorn + whorn / w) ^ 2 + s := by
    nlinarith [sq_nonneg (w / whorn - whorn / w)]
  have hD0 : 0 < (w / whorn + whorn / w) ^ 2 + s := by linarith
  rw [hcoup]
  refine ⟨by positivity, ?_, ?_⟩
  · rw [div_le_one hD0]
    exact hD4
  · constructor
    · intro h1
      have hD : (w / whorn + whorn / w) ^ 2 + s = 4 := by
        rw [div_eq_one_iff_eq (ne_of_gt hD0)] at h1
        linarith
      have hz1 : (w / whorn - whorn / w) ^ 2 = 0 := by nlinarith
      have hz2 : s = 0 := by nlinarith
      constructor
      · have hd : w / whorn - whorn / w = 0 :=
          (pow_eq_zero_iff two_ne_zero).mp hz1
        have h3 : w / whorn = whorn / w := by linarith
        have h4 : w * w = whorn * whorn := by
          field_simp at h3
          linarith
        rcases mul_self_eq_mul_self_iff.mp h4 with h5 | h5
        · exact h5
        · exfalso
          nlinarith
      · have hk : 0 < (Real.pi * whorn * w / wl) ^ 2 := by positivity
        have h6 : (1 / r - 1 / (10 : ℝ) ^ 50) ^ 2 = 0 := by
          rcases mul_eq_zero.mp (hsdef ▸ hz2) with h | h
          · exact absurd h (ne_of_gt hk)
          · exact h
        have h7 : 1 / r = 1 / (10 : ℝ) ^ 50 := by
          have := (pow_eq_zero_iff two_ne_zero).mp h6
          linarith
        have hr0 : r ≠ 0 := by
          intro h0
          rw [h0] at h7
          simp at h7
          have : (0 : ℝ) < ((10 : ℝ) ^ 50)⁻¹ := by positivity
          linarith [h7]
        field_simp at h7
        linarith
    · rintro ⟨hww, hrr⟩
      have hs0 : s = 0 := by
        rw [hsdef, hrr]
        simp
      rw [hs0, hww, div_self (ne_of_gt hwh)]
      norm_num

/-- Witness for C4 at `q = i`, horn waist 1, zero offset, wavelength 1. -/
theorem C4_coupling_bounds_witness :
    0 ≤ coupling Complex.I 1 0 1 ∧ coupling Complex.I 1 0 1 ≤ 1 ∧
    (coupling Complex.I 1 0 1 = 1 ↔
      coupling_w Complex.I 0 1 = 1 ∧ coupling_r Complex.I 0 = (10 : ℝ) ^ 50) :=
  C4_coupling_bounds Complex.I 1 0 1 (by norm_num) (by norm_num)
    (by norm_num [Complex.I_im])

end GaussOpt
